import Mathlib

/-!
Verification of the electrolyzer dispatch optimizer
(`Quellcode/optimization_model.py`) and its data loaders
(`Quellcode/get_data/load_data.py`, `Quellcode/get_data/ppa_profiles.py`).

The hourly model is embedded shallowly: timestamps are civil-calendar
records, all prices and energies are rationals, the LP built by
`run_optimization` is represented by its feasible set (one field per
`solver.Add` call and per variable bound) and by its objective value.
-/

/-- A timestamp of the hourly series: civil year, month, day and hour
(the pandas `DatetimeIndex` entries `t` with `t.year`, `t.month`, `t.hour`). -/
structure Date where
  year : ℕ
  month : ℕ
  day : ℕ
  hour : ℕ
deriving DecidableEq, Repr

/-- The parameter dictionary `params` consumed by `run_optimization`. -/
structure Params where
  P_max : ℚ
  P_min : ℚ
  delta_t : ℚ
  eta_ely : ℚ
  p_ppa : ℚ
  strafe : ℚ

/-- One candidate assignment of the decision variables of the model:
the six per-hour variable families created in `run_optimization`
(lines 57-86 of `optimization_model.py`). -/
structure Sol where
  E_ely : Date → ℚ
  G_ppa_used : Date → ℚ
  B_grid : Date → ℚ
  S_sell : Date → ℚ
  H_prod : Date → ℚ
  Z_penalty : Date → ℚ

/-- The hours of `ts` belonging to civil month `(y, m)` — the list
`hours_in_month` computed at line 133 of `optimization_model.py`. -/
def hoursInMonth (ts : List Date) (y m : ℕ) : List Date :=
  ts.filter (fun t => t.year == y && t.month == m)

/-- The unique `(year, month)` combinations of the series —
`df[['year','month']].drop_duplicates()` at line 127. -/
def monthsOf (ts : List Date) : List (ℕ × ℕ) :=
  (ts.map (fun t => (t.year, t.month))).dedup

/-- The feasible set of the linear program built by `run_optimization`:
one field per variable bound (lines 71-86) and per `solver.Add` call
(lines 95-144 of `optimization_model.py`).  The commented-out
grid-purchase admission constraint of lines 108-111 is absent here
exactly as it is absent from the solver model. -/
structure Feasible (ts : List Date) (ppa_avail h2_price da_price : Date → ℚ)
    (θ : Params) (s : Sol) : Prop where
  /-- All six variables are created with lower bound 0 (lines 71-86). -/
  var_lb : ∀ t ∈ ts, 0 ≤ s.E_ely t ∧ 0 ≤ s.G_ppa_used t ∧ 0 ≤ s.B_grid t ∧
    0 ≤ s.S_sell t ∧ 0 ≤ s.H_prod t ∧ 0 ≤ s.Z_penalty t
  /-- `E_ely` is created with upper bound `P_max * delta_t` (line 71). -/
  E_ub : ∀ t ∈ ts, s.E_ely t ≤ θ.P_max * θ.delta_t
  /-- (1) Energie-Bilanz, line 97. -/
  energiebilanz : ∀ t ∈ ts, s.E_ely t = s.G_ppa_used t + s.B_grid t
  /-- (2) Umwandlung in Wasserstoff, line 100. -/
  umwandlung : ∀ t ∈ ts, s.H_prod t = s.E_ely t * θ.eta_ely
  /-- (4) Mindestlast-Hilfsconstraint, line 106. -/
  mindestlast : ∀ t ∈ ts, s.Z_penalty t ≥ θ.P_min * θ.delta_t - s.E_ely t
  /-- (6a) hourly PPA sale cap, imposed only when `t.year < 2030` (line 116). -/
  ppa_verkauf : ∀ t ∈ ts, t.year < 2030 → s.S_sell t ≤ ppa_avail t
  /-- (6a) hourly PPA availability cap, imposed when `2030 ≤ t.year` (line 121). -/
  ppa_verfuegbarkeit : ∀ t ∈ ts, 2030 ≤ t.year →
    s.G_ppa_used t + s.S_sell t ≤ ppa_avail t
  /-- (6b) monthly PPA budget for months of years before 2030 (lines 129-144):
  the sum of used PPA energy — the sale `S_sell` is not part of the sum. -/
  monatsbudget : ∀ ym ∈ monthsOf ts, ym.1 < 2030 →
    ((hoursInMonth ts ym.1 ym.2).map s.G_ppa_used).sum ≤
      ((hoursInMonth ts ym.1 ym.2).map ppa_avail).sum

/-- The list `objective_terms`, built by appending one hourly contribution
per time step (lines 150-163 of `optimization_model.py`). -/
def objective_terms (ts : List Date) (h2_price da_price : Date → ℚ)
    (θ : Params) (s : Sol) : List ℚ :=
  ts.foldl (fun acc t => acc ++
    [h2_price t * s.H_prod t + da_price t * s.S_sell t
      - θ.p_ppa * s.G_ppa_used t - da_price t * s.B_grid t
      - θ.strafe * s.Z_penalty t]) []

/-- The maximized quantity `solver.Sum(objective_terms)` (line 166). -/
def objectiveValue (ts : List Date) (h2_price da_price : Date → ℚ)
    (θ : Params) (s : Sol) : ℚ :=
  (objective_terms ts h2_price da_price θ s).sum

/-- An optimal point of the model: feasible, and of objective value at
least that of every feasible point.  The result table returned by
`run_optimization` on status `OPTIMAL` is read off such a point. -/
def IsOptimal (ts : List Date) (ppa_avail h2_price da_price : Date → ℚ)
    (θ : Params) (s : Sol) : Prop :=
  Feasible ts ppa_avail h2_price da_price θ s ∧
  ∀ s2 : Sol, Feasible ts ppa_avail h2_price da_price θ s2 →
    objectiveValue ts h2_price da_price θ s2 ≤ objectiveValue ts h2_price da_price θ s

/-- The exogenous grid-purchase admission column of the assembled data,
`df_final["v"] = (df_final["DA_price"] < 20).astype(int)`
(line 108 of `get_data/load_data.py`). -/
def v_flag (da_price : Date → ℚ) (t : Date) : ℕ :=
  if da_price t < 20 then 1 else 0

/-- The day-ahead price column used by the optimizer: the merged series
when `da_prices` is present, and the all-zero placeholder column
`df['da_price'] = 0.0` when it is `None` (lines 37-41). -/
def da_price_col (da_prices : Option (Date → ℚ)) : Date → ℚ :=
  fun t => match da_prices with
    | some f => f t
    | none => 0

/-- The `pywraplp` termination statuses inspected at lines 175-198. -/
inductive SolverStatus where
  | OPTIMAL
  | FEASIBLE
  | INFEASIBLE
  | UNBOUNDED
  | ABNORMAL
  | NOT_SOLVED
deriving DecidableEq, Repr

/-- One row of `results_df` (lines 184-190 of `optimization_model.py`). -/
structure ResultRow where
  E_ely : ℚ
  G_ppa_used : ℚ
  B_grid : ℚ
  S_sell : ℚ
  H_prod : ℚ
  Z_penalty : ℚ
deriving DecidableEq, Repr

/-- The result-extraction tail of `run_optimization` (lines 174-200):
only status `OPTIMAL` yields a result table; status `FEASIBLE`
(line 194) and every other status return `None`. -/
def extract_results (status : SolverStatus) (ts : List Date) (s : Sol) :
    Option (List (Date × ResultRow)) :=
  match status with
  | .OPTIMAL => some (ts.map fun t =>
      (t, ⟨s.E_ely t, s.G_ppa_used t, s.B_grid t, s.S_sell t, s.H_prod t, s.Z_penalty t⟩))
  | .FEASIBLE => none
  | _ => none

/-- The objective the specification prescribes in §4.2.3, written from the
spec's words for comparison with `objectiveValue`:
`Σ_h [ PH2(h)·H(h) + DA(h)·S(h) − (DA(h) + ε)·B(h) ] − p_ppa · Σ_h G_avail(h)`
with `ε = 1e-3`. -/
def specObjective (ts : List Date) (ppa_avail h2_price da_price : Date → ℚ)
    (θ : Params) (s : Sol) : ℚ :=
  (ts.map fun t => h2_price t * s.H_prod t + da_price t * s.S_sell t
    - (da_price t + 1/1000) * s.B_grid t).sum
  - θ.p_ppa * (ts.map ppa_avail).sum

/-- An hour of 2029 (monthly PPA regime). -/
def d29 : Date := ⟨2029, 1, 1, 0⟩

/-- An hour of 2030 (hourly PPA regime). -/
def d30 : Date := ⟨2030, 1, 1, 0⟩

/-- A two-hour series spanning both PPA regimes. -/
def ts0 : List Date := [d29, d30]

/-- Parameters of the demonstration instance. -/
def theta0 : Params := ⟨10, 5, 1, 1, 12, 5⟩

/-- Availability of the demonstration instance. -/
def avail0 : Date → ℚ := fun _ => 2

/-- Hydrogen price of the demonstration instance. -/
def h2p0 : Date → ℚ := fun _ => 10

/-- Day-ahead price of the demonstration instance. -/
def dap0 : Date → ℚ := fun _ => 20

/-- The idle point: every variable 0 except the minimum-load slack. -/
def sol0 : Sol := ⟨fun _ => 0, fun _ => 0, fun _ => 0, fun _ => 0, fun _ => 0, fun _ => 5⟩

/-- One-hour instance on which the code's objective and the spec's
objective differ. -/
def ts_c1 : List Date := [d30]

/-- Parameters of the C1 instance. -/
def theta_c1 : Params := ⟨1, 0, 1, 1, 30, 1000⟩

/-- Availability of the C1 instance. -/
def avail_c1 : Date → ℚ := fun _ => 2

/-- Hydrogen price of the C1 instance. -/
def h2p_c1 : Date → ℚ := fun _ => 100

/-- Day-ahead price of the C1 instance. -/
def dap_c1 : Date → ℚ := fun _ => 40

/-- A feasible point of the C1 instance: run at full load on PPA energy,
sell the surplus. -/
def sol_c1 : Sol := ⟨fun _ => 1, fun _ => 1, fun _ => 0, fun _ => 1, fun _ => 1, fun _ => 0⟩

/-- One-hour instance (monthly regime) on which the optimum of the model
runs the electrolyzer strictly between zero and minimum load. -/
def ts_c2 : List Date := [d29]

/-- The unique optimum of the C2 instance: all PPA availability (2 MWh,
below the 5 MWh minimum load of `theta0`) is used and the same amount is
sold, with minimum-load slack 3. -/
def sol_c2 : Sol := ⟨fun _ => 2, fun _ => 2, fun _ => 0, fun _ => 2, fun _ => 2, fun _ => 3⟩

/-- Every optimum of the C2 instance uses exactly 2 MWh in its single
hour — strictly between 0 and the minimum load `P_min·delta_t = 5`. -/
def C2_every_optimum_interior : Prop :=
  ∀ s : Sol, IsOptimal ts_c2 avail0 h2p0 dap0 theta0 s → s.E_ely d29 = 2

/-- One-hour 2029 instance for C3. -/
def ts_c3 : List Date := [d29]

/-- Parameters of the C3 instance. -/
def theta_c3 : Params := ⟨1, 1, 1, 1, 30, 2⟩

/-- Availability of the C3 instance. -/
def avail_c3 : Date → ℚ := fun _ => 1

/-- A model-feasible point of the C3 instance that uses the whole hourly
availability *and* sells the same amount again. -/
def sol_c3 : Sol := ⟨fun _ => 1, fun _ => 1, fun _ => 0, fun _ => 1, fun _ => 1, fun _ => 0⟩

/-- A point selling more than the hourly availability in a pre-policy
hour; the model rejects it. -/
def sol_c3b : Sol := ⟨fun _ => 0, fun _ => 0, fun _ => 0, fun _ => 2, fun _ => 0, fun _ => 1⟩

/-- One-hour 2030 instance for C4: no PPA availability, day-ahead price
exactly 20 (so the assembled admission flag is `v = 0`), hydrogen revenue
well above the grid price. -/
def ts_c4 : List Date := [d30]

/-- Parameters of the C4 instance. -/
def theta_c4 : Params := ⟨2, 1, 1, 1, 0, 1⟩

/-- Availability of the C4 instance. -/
def avail_c4 : Date → ℚ := fun _ => 0

/-- Hydrogen price of the C4 instance. -/
def h2p_c4 : Date → ℚ := fun _ => 50

/-- Day-ahead price of the C4 instance. -/
def dap_c4 : Date → ℚ := fun _ => 20

/-- The unique optimum of the C4 instance: run at full load entirely on
grid purchases. -/
def sol_c4 : Sol := ⟨fun _ => 2, fun _ => 0, fun _ => 2, fun _ => 0, fun _ => 2, fun _ => 0⟩

/-- Every optimum of the C4 instance purchases 2 MWh from the grid in an
hour whose admission flag is 0. -/
def C4_every_optimum_buys : Prop :=
  ∀ s : Sol, IsOptimal ts_c4 avail_c4 h2p_c4 dap_c4 theta_c4 s → s.B_grid d30 = 2

/-- `is_leap_year` of `get_data/load_data.py` (lines 18-20). -/
def is_leap_year (y : ℕ) : Bool :=
  (y % 4 == 0 && y % 100 != 0) || (y % 400 == 0)

/-- `safe_replace_year` (lines 11-16): re-stamp a timestamp onto a new
year; `dt.replace(year=...)` raises exactly when the original date is a
29 February and the new year has none, in which case the day becomes 28. -/
def safe_replace_year (dt : Date) (newYear : ℕ) : Date :=
  if dt.month = 2 ∧ dt.day = 29 ∧ is_leap_year newYear = false then
    ⟨newYear, 2, 28, dt.hour⟩
  else
    ⟨newYear, dt.month, dt.day, dt.hour⟩

/-- Re-stamp one `(datetime, G_PPA_avail)` row (line 67). -/
def restampRow (newYear : ℕ) (r : Date × ℚ) : Date × ℚ :=
  (safe_replace_year r.1 newYear, r.2)

/-- The scan underlying `drop_duplicates(subset="datetime", keep="first")`:
a row is kept iff its datetime has not been seen before. -/
def drop_duplicates_scan : List (Date × ℚ) → List Date → List (Date × ℚ)
  | [], _ => []
  | r :: rs, seen =>
    if r.1 ∈ seen then drop_duplicates_scan rs seen
    else r :: drop_duplicates_scan rs (r.1 :: seen)

/-- `df.drop_duplicates(subset="datetime", keep="first")` (line 73). -/
def drop_duplicates_keep_first (l : List (Date × ℚ)) : List (Date × ℚ) :=
  drop_duplicates_scan l []

/-- One iteration of the PPA loading loop of `load_all_data`
(lines 51-77): re-stamp the weather-year stream onto the optimization
year, then — exactly when the weather year is a leap year and the
optimization year is not — drop duplicate instants keeping the first. -/
def ppaForOptYear (weatherYear optYear : ℕ) (stream : List (Date × ℚ)) :
    List (Date × ℚ) :=
  let restamped := stream.map (restampRow optYear)
  if is_leap_year weatherYear = true ∧ is_leap_year optYear = false then
    drop_duplicates_keep_first restamped
  else
    restamped

/-- The 48 hours of a leap-day window, abbreviated to four rows: the
first two hours of 28 and of 29 February of weather year 2008. -/
def demoStream : List (Date × ℚ) :=
  [(⟨2008, 2, 28, 0⟩, 1), (⟨2008, 2, 28, 1⟩, 2),
   (⟨2008, 2, 29, 0⟩, 3), (⟨2008, 2, 29, 1⟩, 4)]

/-- The `mode` argument of `get_ppa_data`; the source accepts exactly the
strings `"mix"`, `"pv"` and `"wind"` (any other raises `ValueError`). -/
inductive Mode where
  | mix
  | pv
  | wind
deriving DecidableEq, Repr

/-- The mix column label `f"pv{pv_pct}_wind{100 - pv_pct}"` (line 196). -/
def mixLabel (pv_pct : ℕ) : String :=
  "pv" ++ toString pv_pct ++ "_wind" ++ toString (100 - pv_pct)

/-- One row of the long-format frame built per year (lines 171-199):
columns `["year", "hour", "mix", "datetime", "G_PPA_avail"]`. -/
structure LongRow where
  year : ℕ
  hour : ℕ
  mix : String
  datetime : Date
  G_PPA_avail : ℚ
deriving DecidableEq, Repr

/-- The frames built for one year from the fetched `electricity` series
(lines 171-199): one frame per mode, or one per mix percentage in mode
`mix`, where the mix series is `pv·share + wind·(1−share)` over the
common timestamp index. -/
def framesForYear (pvElec windElec : ℕ → List (Date × ℚ)) (mode : Mode)
    (mixes : List ℕ) (year : ℕ) : List LongRow :=
  match mode with
  | .pv => (pvElec year).map (fun r =>
      ⟨year, r.1.hour, "pv100_wind0", r.1, r.2⟩)
  | .wind => (windElec year).map (fun r =>
      ⟨year, r.1.hour, "pv0_wind100", r.1, r.2⟩)
  | .mix => mixes.flatMap (fun pv_pct =>
      ((pvElec year).zip (windElec year)).map (fun pw =>
        ⟨year, pw.1.1.hour, mixLabel pv_pct, pw.1.1,
          pw.1.2 * ((pv_pct : ℚ) / 100) + pw.2.2 * (1 - (pv_pct : ℚ) / 100)⟩))

/-- The `/= 1000.0` rescaling applied to every column whose name starts
with `pv` or `wind` (line 215). -/
def scaleMixColumn (m : String) (x : ℚ) : ℚ :=
  if m.startsWith "pv" || m.startsWith "wind" then x / 1000 else x

/-- The columns of the pivoted result (lines 208-213): the index columns
`datetime`, `year`, `hour` followed by one column per distinct mix label.
(The pandas pivot additionally sorts; the column *set* and the row
contents are unaffected, and no property below depends on order.) -/
def pivotColumns (rows : List LongRow) : List String :=
  "datetime" :: "year" :: "hour" :: (rows.map (fun r => r.mix)).dedup

/-- The wide table produced by `result.pivot_table(index=["datetime",
"year", "hour"], columns="mix", values="G_PPA_avail")` followed by the
mix-column rescaling: one row per distinct `(datetime, year, hour)` key
carrying one value per mix column. -/
structure WideTable where
  columns : List String
  rows : List (Date × ℕ × ℕ × List ℚ)
deriving DecidableEq

/-- Build the wide pivot table from the long rows (lines 205-216). -/
def pivotWide (rows : List LongRow) : WideTable where
  columns := pivotColumns rows
  rows :=
    (rows.map (fun r => (r.datetime, r.year, r.hour))).dedup.map (fun k =>
      (k.1, k.2.1, k.2.2,
        ((rows.map (fun r => r.mix)).dedup).map (fun m =>
          match rows.find? (fun r => r.datetime == k.1 && r.year == k.2.1 &&
              r.hour == k.2.2 && r.mix == m) with
          | some r => scaleMixColumn m r.G_PPA_avail
          | none => 0)))

/-- `get_ppa_data` (lines 91-216), embedded over abstract fetched
`electricity` series `pvElec`/`windElec` (the network responses of the
renewables.ninja API).  Exactly as in the source, the `flatten` and
`pv_share` parameters appear in the signature (and docstring) only: the
body never consults them, and the wide pivot table is returned in every
case. -/
def get_ppa_data (pvElec windElec : ℕ → List (Date × ℚ))
    (start_year end_year : ℕ) (mode : Mode) (mixes : Option (List ℕ))
    ( flatten : Bool) (pv_share : Option ℕ) : WideTable :=
  let mixList := match mixes with
    | none => (List.range 11).map (fun i => i * 10)
    | some m => m
  let longRows := (List.range' start_year (end_year + 1 - start_year)).flatMap
    (framesForYear pvElec windElec mode mixList)
  pivotWide longRows

/-- `objective_terms` built by successive appends equals the map of the
hourly contribution over the series. -/
theorem objective_terms_eq_map (ts : List Date) (h2_price da_price : Date → ℚ)
    (θ : Params) (s : Sol) :
    objective_terms ts h2_price da_price θ s = ts.map (fun t =>
      h2_price t * s.H_prod t + da_price t * s.S_sell t
        - θ.p_ppa * s.G_ppa_used t - da_price t * s.B_grid t
        - θ.strafe * s.Z_penalty t) := by
  have key : ∀ (f : Date → ℚ) (l : List Date) (acc : List ℚ),
      l.foldl (fun a t => a ++ [f t]) acc = acc ++ l.map f := by
    intro f l
    induction l with
    | nil => intro acc; simp
    | cons t l ih =>
      intro acc
      simp only [List.foldl_cons, List.map_cons]
      rw [ih]
      simp
  exact key _ ts []

/-- The objective value as a sum over the hours of the series. -/
theorem objectiveValue_eq_sum (ts : List Date) (h2_price da_price : Date → ℚ)
    (θ : Params) (s : Sol) :
    objectiveValue ts h2_price da_price θ s = (ts.map (fun t =>
      h2_price t * s.H_prod t + da_price t * s.S_sell t
        - θ.p_ppa * s.G_ppa_used t - da_price t * s.B_grid t
        - θ.strafe * s.Z_penalty t)).sum := by
  unfold objectiveValue
  rw [objective_terms_eq_map]

theorem sol0_feasible : Feasible ts0 avail0 h2p0 dap0 theta0 sol0 := by
  constructor
  · intro t _; simp [sol0]
  · intro t _; simp [sol0, theta0]
  · intro t _; simp [sol0]
  · intro t _; simp [sol0]
  · intro t _; simp [sol0, theta0]
  · intro t _ _; simp [sol0, avail0]
  · intro t _ _; simp [sol0, avail0]
  · intro ym _ _
    have h1 : ((hoursInMonth ts0 ym.1 ym.2).map sol0.G_ppa_used).sum = 0 := by
      simp [sol0]
    rw [h1]
    apply List.sum_nonneg
    intro x hx
    rcases List.mem_map.mp hx with ⟨t, _, rfl⟩
    simp [avail0]

/-- C5: for every hour `h` with `year(h) ≥ 2030` (the hard-coded system
value of the policy year), every feasible solution of the model built by
the optimizer satisfies the hourly PPA cap
`G_used(h) + S(h) ≤ G_avail(h)`. -/
theorem C5_hourly_ppa_cap (ts : List Date) (ppa_avail h2_price da_price : Date → ℚ)
    (θ : Params) (s : Sol)
    (hF : Feasible ts ppa_avail h2_price da_price θ s) :
    ∀ t ∈ ts, 2030 ≤ t.year → s.G_ppa_used t + s.S_sell t ≤ ppa_avail t :=
  hF.ppa_verfuegbarkeit

/-- Witness for C5 at the concrete demonstration instance. -/
theorem C5_hourly_ppa_cap_witness :
    Feasible ts0 avail0 h2p0 dap0 theta0 sol0 ∧
    (sol0.G_ppa_used d30 + sol0.S_sell d30 ≤ avail0 d30) :=
  ⟨sol0_feasible,
    C5_hourly_ppa_cap ts0 avail0 h2p0 dap0 theta0 sol0 sol0_feasible d30
      (by simp [ts0]) (by simp [d30])⟩

/-- C6: for every hour `h`, every feasible solution of the model satisfies
the exact energy balance `E(h) = G_used(h) + B(h)` with no slack, and the
conversion identity `H(h) = eta_ely · E(h)`. -/
theorem C6_balance_conversion (ts : List Date) (ppa_avail h2_price da_price : Date → ℚ)
    (θ : Params) (s : Sol)
    (hF : Feasible ts ppa_avail h2_price da_price θ s) :
    ∀ t ∈ ts, s.E_ely t = s.G_ppa_used t + s.B_grid t ∧
      s.H_prod t = θ.eta_ely * s.E_ely t := by
  intro t ht
  exact ⟨hF.energiebilanz t ht, by rw [hF.umwandlung t ht]; ring⟩

/-- Witness for C6 at the concrete demonstration instance. -/
theorem C6_balance_conversion_witness :
    Feasible ts0 avail0 h2p0 dap0 theta0 sol0 ∧
    (sol0.E_ely d29 = sol0.G_ppa_used d29 + sol0.B_grid d29 ∧
      sol0.H_prod d29 = theta0.eta_ely * sol0.E_ely d29) :=
  ⟨sol0_feasible,
    C6_balance_conversion ts0 avail0 h2p0 dap0 theta0 sol0 sol0_feasible d29
      (by simp [ts0])⟩

/-- C10: when the optimizer is called with `da_prices = None` it proceeds
with a day-ahead price of `0.0` for every hour, so in the objective the
grid-purchase cost term and the spot-sale revenue term both vanish: the
objective reduces to hydrogen revenue minus PPA cost minus the
minimum-load penalty. -/
theorem C10_none_da_prices (ts : List Date) (h2_price : Date → ℚ)
    (θ : Params) (s : Sol) :
    (∀ t : Date, da_price_col none t = 0) ∧
    objectiveValue ts h2_price (da_price_col none) θ s =
      (ts.map (fun t => h2_price t * s.H_prod t - θ.p_ppa * s.G_ppa_used t
        - θ.strafe * s.Z_penalty t)).sum := by
  refine ⟨fun t => rfl, ?_⟩
  rw [objectiveValue_eq_sum]
  congr 1
  apply List.map_congr_left
  intro t _
  simp [da_price_col]

/-- C7 counterexample: at the concrete status `FEASIBLE`, the optimizer
returns `None` — not a result table built from the incumbent. -/
theorem C7_feasible_counterexample :
    extract_results SolverStatus.FEASIBLE ts0 sol0 = none := rfl

/-- C7 amended: a result table is returned exactly for status `OPTIMAL`;
on `FEASIBLE` (and every other non-optimal status) the optimizer
returns `None`, with no status tag or warning attached to any result. -/
theorem C7_amended_only_optimal (status : SolverStatus) (ts : List Date) (s : Sol) :
    (extract_results status ts s).isSome = true ↔ status = SolverStatus.OPTIMAL := by
  cases status <;> simp [extract_results]

/-- C1 counterexample: at a concrete one-hour instance and a concrete
feasible point of the model, the objective the code maximizes differs
from the objective prescribed by the spec (`Σ_h [PH2·H + DA·S − (DA+ε)·B]
− p_ppa·Σ_h G_avail`): the code charges the PPA price on `G_used` instead
of the constant `G_avail` offset, adds no tie-break `ε`, and subtracts a
penalty term. -/
theorem C1_objective_counterexample :
    Feasible ts_c1 avail_c1 h2p_c1 dap_c1 theta_c1 sol_c1 ∧
    objectiveValue ts_c1 h2p_c1 dap_c1 theta_c1 sol_c1 ≠
      specObjective ts_c1 avail_c1 h2p_c1 dap_c1 theta_c1 sol_c1 := by
  constructor
  · constructor
    · intro t _; simp [sol_c1]
    · intro t _; simp [sol_c1, theta_c1]
    · intro t _; simp [sol_c1]
    · intro t _; simp [sol_c1, theta_c1]
    · intro t _; simp [sol_c1, theta_c1]
    · intro t ht h
      simp [ts_c1] at ht
      subst ht
      simp [d30] at h
    · intro t ht _
      simp [ts_c1] at ht
      subst ht
      simp [sol_c1, avail_c1]
      norm_num
    · intro ym hym h
      simp +decide [monthsOf, ts_c1, d30] at hym
      subst hym
      norm_num at h
  · rw [objectiveValue_eq_sum]
    simp [ts_c1, specObjective, sol_c1, avail_c1, h2p_c1, dap_c1, theta_c1]

/-- C1 amended: the objective actually maximized equals
`Σ_h [PH2(h)·H(h) + DA(h)·S(h) − DA(h)·B(h)] − p_ppa·Σ_h G_used(h)
− strafe·Σ_h Z(h)`: the grid purchase is priced at `DA(h)` with no
tie-break `ε`, the PPA cost is charged on the used PPA energy (a decision
variable) rather than as a constant pay-as-produced offset on available
energy, and an additional soft minimum-load penalty is subtracted. -/
theorem C1_amended_objective (ts : List Date) (h2_price da_price : Date → ℚ)
    (θ : Params) (s : Sol) :
    objectiveValue ts h2_price da_price θ s =
      (ts.map fun t => h2_price t * s.H_prod t + da_price t * s.S_sell t
        - da_price t * s.B_grid t).sum
      - θ.p_ppa * (ts.map s.G_ppa_used).sum
      - θ.strafe * (ts.map s.Z_penalty).sum := by
  rw [objectiveValue_eq_sum]
  induction ts with
  | nil => simp
  | cons t rest ih =>
    simp only [List.map_cons, List.sum_cons]
    rw [ih]
    ring

theorem C2_model_facts (s : Sol)
    (h : Feasible ts_c2 avail0 h2p0 dap0 theta0 s) :
    objectiveValue ts_c2 h2p0 dap0 theta0 s ≤ 21 ∧
    (21 ≤ objectiveValue ts_c2 h2p0 dap0 theta0 s → s.E_ely d29 = 2) := by
  have hmem : d29 ∈ ts_c2 := by simp [ts_c2]
  obtain ⟨-, hG0, hB0, hS0, -, hZ0⟩ := h.var_lb d29 hmem
  have hbal := h.energiebilanz d29 hmem
  have hconv := h.umwandlung d29 hmem
  have hminl := h.mindestlast d29 hmem
  have hsell := h.ppa_verkauf d29 hmem (by decide)
  have hmon := h.monatsbudget (2029, 1) (by decide) (by norm_num)
  simp [theta0] at hconv hminl
  simp [avail0] at hsell
  simp +decide [hoursInMonth, ts_c2, avail0] at hmon
  have hobj : objectiveValue ts_c2 h2p0 dap0 theta0 s =
      10 * s.H_prod d29 + 20 * s.S_sell d29 - 12 * s.G_ppa_used d29
        - 20 * s.B_grid d29 - 5 * s.Z_penalty d29 := by
    rw [objectiveValue_eq_sum]
    simp [ts_c2, h2p0, dap0, theta0]
  rw [hobj]
  constructor
  · linarith
  · intro hge
    linarith

theorem C2_sol_feasible : Feasible ts_c2 avail0 h2p0 dap0 theta0 sol_c2 := by
  constructor
  · intro t _; simp [sol_c2]
  · intro t _; simp [sol_c2, theta0]; norm_num
  · intro t ht
    simp [ts_c2] at ht; subst ht
    simp [sol_c2]
  · intro t ht
    simp [ts_c2] at ht; subst ht
    simp [sol_c2, theta0]
  · intro t ht
    simp [ts_c2] at ht; subst ht
    simp [sol_c2, theta0]
    norm_num
  · intro t ht _
    simp [ts_c2] at ht; subst ht
    simp [sol_c2, avail0]
  · intro t ht hy
    simp [ts_c2] at ht; subst ht
    simp [d29] at hy
  · intro ym hym hy
    simp +decide [monthsOf, ts_c2, d29] at hym
    subst hym
    simp +decide [hoursInMonth, ts_c2, sol_c2, avail0]

/-- C2 counterexample: a concrete one-hour instance of the model whose
(provably unique, in the load component) optimal solution draws
`E = 2` — strictly more than 0 and strictly less than the minimum load
`P_min·delta_t = 5`.  The returned result therefore operates strictly
between 0 and minimum load, so no binary commitment `u(h)` with
`E ≥ P_min·delta_t·u` and `E ≤ P_max·delta_t·u` can exist. -/
theorem C2_counterexample :
    IsOptimal ts_c2 avail0 h2p0 dap0 theta0 sol_c2 ∧
    (0 < sol_c2.E_ely d29 ∧ sol_c2.E_ely d29 < theta0.P_min * theta0.delta_t) ∧
    C2_every_optimum_interior := by
  have hval : objectiveValue ts_c2 h2p0 dap0 theta0 sol_c2 = 21 := by
    rw [objectiveValue_eq_sum]
    simp [ts_c2, sol_c2, h2p0, dap0, theta0]
    norm_num
  refine ⟨⟨C2_sol_feasible, ?_⟩, ⟨by simp [sol_c2], by simp [sol_c2, theta0]; norm_num⟩, ?_⟩
  · intro s2 h2
    rw [hval]
    exact (C2_model_facts s2 h2).1
  · intro s hs
    obtain ⟨hF, hMax⟩ := hs
    have hge := hMax sol_c2 C2_sol_feasible
    rw [hval] at hge
    exact (C2_model_facts s hF).2 hge

/-- C2 amended: the model imposes no on/off commitment.  The load is only
bounded by `0 ≤ E(h) ≤ P_max·delta_t`, with a soft slack
`Z(h) ≥ P_min·delta_t − E(h)` penalized in the objective; in particular,
for every instance with non-negative availability, `0 < P_min ≤ P_max`,
`0 < delta_t` and `0 ≤ eta_ely`, the model admits feasible points running
strictly between 0 and minimum load in every hour. -/
theorem C2_amended_soft_minimum (ts : List Date) (ppa_avail h2_price da_price : Date → ℚ)
    (θ : Params) (hav : ∀ t ∈ ts, 0 ≤ ppa_avail t) (hpm : 0 < θ.P_min)
    (hord : θ.P_min ≤ θ.P_max) (hdt : 0 < θ.delta_t) (heta : 0 ≤ θ.eta_ely) :
    ∃ s : Sol, Feasible ts ppa_avail h2_price da_price θ s ∧
      ∀ t ∈ ts, 0 < s.E_ely t ∧ s.E_ely t < θ.P_min * θ.delta_t := by
  have hpmd : 0 < θ.P_min * θ.delta_t := mul_pos hpm hdt
  have hle : θ.P_min * θ.delta_t ≤ θ.P_max * θ.delta_t :=
    mul_le_mul_of_nonneg_right hord hdt.le
  refine ⟨⟨fun _ => θ.P_min * θ.delta_t / 2, fun _ => 0,
    fun _ => θ.P_min * θ.delta_t / 2, fun _ => 0,
    fun _ => θ.P_min * θ.delta_t / 2 * θ.eta_ely,
    fun _ => θ.P_min * θ.delta_t⟩, ?_, ?_⟩
  · constructor
    · intro t _
      refine ⟨by linarith, le_refl 0, by linarith, le_refl 0, ?_, by linarith⟩
      exact mul_nonneg (by linarith) heta
    · intro t _; simp only; linarith
    · intro t _; simp only; ring
    · intro t _; simp only
    · intro t _; simp only; linarith
    · intro t ht _; simpa using hav t ht
    · intro t ht _; simpa using hav t ht
    · intro ym _ _
      have h1 : ((hoursInMonth ts ym.1 ym.2).map (fun _ : Date => (0:ℚ))).sum = 0 := by
        simp
      simp only [h1]
      apply List.sum_nonneg
      intro x hx
      obtain ⟨t, ht, rfl⟩ := List.mem_map.mp hx
      exact hav t (List.mem_of_mem_filter ht)
  · intro t _
    constructor
    · simp only; linarith
    · simp only; linarith

/-- Witness for the amended C2 at the concrete demonstration instance. -/
theorem C2_amended_soft_minimum_witness :
    (∀ t ∈ ts0, 0 ≤ avail0 t) ∧ 0 < theta0.P_min ∧ theta0.P_min ≤ theta0.P_max ∧
    0 < theta0.delta_t ∧ 0 ≤ theta0.eta_ely ∧
    (∃ s : Sol, Feasible ts0 avail0 h2p0 dap0 theta0 s ∧
      ∀ t ∈ ts0, 0 < s.E_ely t ∧ s.E_ely t < theta0.P_min * theta0.delta_t) :=
  ⟨fun t _ => by simp [avail0], by norm_num [theta0], by norm_num [theta0],
    by norm_num [theta0], by norm_num [theta0],
    C2_amended_soft_minimum ts0 avail0 h2p0 dap0 theta0
      (fun t _ => by simp [avail0]) (by norm_num [theta0])
      (by norm_num [theta0]) (by norm_num [theta0]) (by norm_num [theta0])⟩

/-- C3 counterexample: in the pre-policy regime the model accepts a point
whose month violates the claimed budget `Σ(G_used + S) ≤ Σ G_avail` —
the sale is not part of the monthly sum — and rejects a point with
`S(h) > G_avail(h)`, so an hourly PPA ceiling does constrain `S(h)`
individually in that regime. -/
theorem C3_counterexample :
    Feasible ts_c3 avail_c3 h2p0 dap0 theta_c3 sol_c3 ∧
    ¬ (((hoursInMonth ts_c3 2029 1).map
          (fun t => sol_c3.G_ppa_used t + sol_c3.S_sell t)).sum ≤
        ((hoursInMonth ts_c3 2029 1).map avail_c3).sum) ∧
    ¬ Feasible ts_c3 avail_c3 h2p0 dap0 theta_c3 sol_c3b := by
  refine ⟨?_, ?_, ?_⟩
  · constructor
    · intro t _; simp [sol_c3]
    · intro t _; simp [sol_c3, theta_c3]
    · intro t _; simp [sol_c3]
    · intro t _; simp [sol_c3, theta_c3]
    · intro t _; simp [sol_c3, theta_c3]
    · intro t ht _
      simp [ts_c3] at ht; subst ht
      simp [sol_c3, avail_c3]
    · intro t ht hy
      simp [ts_c3] at ht; subst ht
      simp [d29] at hy
    · intro ym hym _
      simp +decide [monthsOf, ts_c3, d29] at hym
      subst hym
      simp +decide [hoursInMonth, ts_c3, sol_c3, avail_c3]
  · simp +decide [hoursInMonth, ts_c3, sol_c3, avail_c3]
  · intro h
    have := h.ppa_verkauf d29 (by simp [ts_c3]) (by decide)
    simp [sol_c3b, avail_c3] at this

/-- C3 amended: for every `(year, month)` group with `year < 2030` the
model imposes the monthly budget `Σ_{h∈month} G_used(h) ≤
Σ_{h∈month} G_avail(h)` — the sold energy `S` is *not* included in the
left-hand side — and in the same regime the hourly ceiling
`S(h) ≤ G_avail(h)` does constrain the sale individually. -/
theorem C3_amended_monthly_budget (ts : List Date)
    (ppa_avail h2_price da_price : Date → ℚ) (θ : Params) (s : Sol)
    (hF : Feasible ts ppa_avail h2_price da_price θ s) :
    (∀ ym ∈ monthsOf ts, ym.1 < 2030 →
      ((hoursInMonth ts ym.1 ym.2).map s.G_ppa_used).sum ≤
        ((hoursInMonth ts ym.1 ym.2).map ppa_avail).sum) ∧
    (∀ t ∈ ts, t.year < 2030 → s.S_sell t ≤ ppa_avail t) :=
  ⟨hF.monatsbudget, hF.ppa_verkauf⟩

/-- Witness for the amended C3 at the concrete demonstration instance. -/
theorem C3_amended_monthly_budget_witness :
    Feasible ts0 avail0 h2p0 dap0 theta0 sol0 ∧
    ((∀ ym ∈ monthsOf ts0, ym.1 < 2030 →
      ((hoursInMonth ts0 ym.1 ym.2).map sol0.G_ppa_used).sum ≤
        ((hoursInMonth ts0 ym.1 ym.2).map avail0).sum) ∧
    (∀ t ∈ ts0, t.year < 2030 → sol0.S_sell t ≤ avail0 t)) :=
  ⟨sol0_feasible,
    C3_amended_monthly_budget ts0 avail0 h2p0 dap0 theta0 sol0 sol0_feasible⟩

theorem C4_model_facts (s : Sol)
    (h : Feasible ts_c4 avail_c4 h2p_c4 dap_c4 theta_c4 s) :
    objectiveValue ts_c4 h2p_c4 dap_c4 theta_c4 s ≤ 60 ∧
    (60 ≤ objectiveValue ts_c4 h2p_c4 dap_c4 theta_c4 s → s.B_grid d30 = 2) := by
  have hmem : d30 ∈ ts_c4 := by simp [ts_c4]
  obtain ⟨-, hG0, hB0, hS0, -, hZ0⟩ := h.var_lb d30 hmem
  have hEub := h.E_ub d30 hmem
  have hbal := h.energiebilanz d30 hmem
  have hconv := h.umwandlung d30 hmem
  have hverf := h.ppa_verfuegbarkeit d30 hmem (by decide)
  simp [theta_c4] at hconv hEub
  simp [avail_c4] at hverf
  have hobj : objectiveValue ts_c4 h2p_c4 dap_c4 theta_c4 s =
      50 * s.H_prod d30 + 20 * s.S_sell d30 - 0 * s.G_ppa_used d30
        - 20 * s.B_grid d30 - 1 * s.Z_penalty d30 := by
    rw [objectiveValue_eq_sum]
    simp [ts_c4, h2p_c4, dap_c4, theta_c4]
  rw [hobj]
  constructor
  · linarith
  · intro hge
    linarith

theorem C4_sol_feasible : Feasible ts_c4 avail_c4 h2p_c4 dap_c4 theta_c4 sol_c4 := by
  constructor
  · intro t _; simp [sol_c4]
  · intro t _; simp [sol_c4, theta_c4]
  · intro t _; simp [sol_c4]
  · intro t _; simp [sol_c4, theta_c4]
  · intro t _; simp [sol_c4, theta_c4]
  · intro t ht hy
    simp [ts_c4] at ht; subst ht
    simp [d30] at hy
  · intro t ht _
    simp [ts_c4] at ht; subst ht
    simp [sol_c4, avail_c4]
  · intro ym hym hy
    simp +decide [monthsOf, ts_c4, d30] at hym
    subst hym
    norm_num at hy

/-- C4 counterexample: a concrete instance whose hour has admission flag
`v = 0` (day-ahead price 20) but whose optimal solution — unique in the
grid-purchase component — buys `B = 2 > P_max·delta_t·v = 0` from the
grid: the admission coupling `B(h) ≤ P_max·delta_t·v(h)` is absent from
the model (it is commented out in the source). -/
theorem C4_counterexample :
    IsOptimal ts_c4 avail_c4 h2p_c4 dap_c4 theta_c4 sol_c4 ∧
    v_flag dap_c4 d30 = 0 ∧
    ¬ (sol_c4.B_grid d30 ≤ theta_c4.P_max * theta_c4.delta_t * (v_flag dap_c4 d30 : ℚ)) ∧
    C4_every_optimum_buys := by
  have hval : objectiveValue ts_c4 h2p_c4 dap_c4 theta_c4 sol_c4 = 60 := by
    rw [objectiveValue_eq_sum]
    simp [ts_c4, sol_c4, h2p_c4, dap_c4, theta_c4]
    norm_num
  have hv : v_flag dap_c4 d30 = 0 := by norm_num [v_flag, dap_c4]
  refine ⟨⟨C4_sol_feasible, ?_⟩, hv, ?_, ?_⟩
  · intro s2 h2
    rw [hval]
    exact (C4_model_facts s2 h2).1
  · rw [hv]
    simp [sol_c4, theta_c4]
  · intro s hs
    obtain ⟨hF, hMax⟩ := hs
    have hge := hMax sol_c4 C4_sol_feasible
    rw [hval] at hge
    exact (C4_model_facts s hF).2 hge

/-- C4 amended: the model contains no grid-purchase admission constraint
(`v` never enters the solver model); the only upper bound on `B(h)` is
the one induced by the energy balance and the load cap,
`B(h) ≤ E(h) ≤ P_max·delta_t`, which holds regardless of `v(h)`, and
purchases can occur in hours with `v(h) = 0`. -/
theorem C4_amended_no_admission (ts : List Date)
    (ppa_avail h2_price da_price : Date → ℚ) (θ : Params) (s : Sol)
    (hF : Feasible ts ppa_avail h2_price da_price θ s) :
    ∀ t ∈ ts, s.B_grid t ≤ θ.P_max * θ.delta_t := by
  intro t ht
  obtain ⟨-, hG0, -, -, -, -⟩ := hF.var_lb t ht
  have hbal := hF.energiebilanz t ht
  have hEub := hF.E_ub t ht
  linarith

/-- Witness for the amended C4 at the concrete demonstration instance. -/
theorem C4_amended_no_admission_witness :
    Feasible ts0 avail0 h2p0 dap0 theta0 sol0 ∧
    sol0.B_grid d29 ≤ theta0.P_max * theta0.delta_t :=
  ⟨sol0_feasible,
    C4_amended_no_admission ts0 avail0 h2p0 dap0 theta0 sol0 sol0_feasible d29
      (by simp [ts0])⟩

theorem drop_duplicates_scan_subset :
    ∀ (l : List (Date × ℚ)) (seen : List Date) (p : Date × ℚ),
      p ∈ drop_duplicates_scan l seen → p ∈ l := by
  intro l
  induction l with
  | nil => intro seen p hp; simp [drop_duplicates_scan] at hp
  | cons r rs ih =>
    intro seen p hp
    simp only [drop_duplicates_scan] at hp
    by_cases hr : r.1 ∈ seen
    · rw [if_pos hr] at hp
      exact List.mem_cons_of_mem r (ih seen p hp)
    · rw [if_neg hr] at hp
      rcases List.mem_cons.mp hp with h | h
      · exact h ▸ List.mem_cons_self r rs
      · exact List.mem_cons_of_mem r (ih (r.1 :: seen) p h)

theorem drop_duplicates_scan_keys :
    ∀ (l : List (Date × ℚ)) (seen : List Date),
      ((drop_duplicates_scan l seen).map Prod.fst).Nodup ∧
      ∀ k ∈ (drop_duplicates_scan l seen).map Prod.fst, k ∉ seen := by
  intro l
  induction l with
  | nil => intro seen; simp [drop_duplicates_scan]
  | cons r rs ih =>
    intro seen
    simp only [drop_duplicates_scan]
    by_cases hr : r.1 ∈ seen
    · rw [if_pos hr]
      exact ih seen
    · rw [if_neg hr]
      obtain ⟨ihnd, ihseen⟩ := ih (r.1 :: seen)
      refine ⟨?_, ?_⟩
      · simp only [List.map_cons, List.nodup_cons]
        refine ⟨?_, ihnd⟩
        intro hmem
        exact ihseen r.1 hmem (List.mem_cons_self r.1 seen)
      · intro k hk
        simp only [List.map_cons, List.mem_cons] at hk
        rcases hk with rfl | hk
        · exact hr
        · intro hkseen
          exact ihseen k hk (List.mem_cons_of_mem r.1 hkseen)

theorem drop_duplicates_scan_filter :
    ∀ (l : List (Date × ℚ)) (seen : List Date) (k : Date),
      (drop_duplicates_scan l seen).filter (fun r => r.1 == k) =
        if k ∈ seen then [] else (l.filter (fun r => r.1 == k)).take 1 := by
  intro l
  induction l with
  | nil =>
    intro seen k
    simp [drop_duplicates_scan]
  | cons r rs ih =>
    intro seen k
    simp only [drop_duplicates_scan]
    by_cases hr : r.1 ∈ seen
    · rw [if_pos hr, ih seen k]
      by_cases hk : k ∈ seen
      · rw [if_pos hk, if_pos hk]
      · have hrk : (r.1 == k) = false := by
          simp only [beq_eq_false_iff_ne, ne_eq]
          intro h
          exact hk (h ▸ hr)
        rw [if_neg hk, if_neg hk, List.filter_cons, hrk]
        simp
    · rw [if_neg hr]
      by_cases hrk : r.1 = k
      · subst hrk
        have h1 : (drop_duplicates_scan rs (r.1 :: seen)).filter
            (fun x => x.1 == r.1) = [] := by
          rw [ih (r.1 :: seen) r.1, if_pos (List.mem_cons_self r.1 seen)]
        rw [List.filter_cons]
        simp only [beq_self_eq_true, if_true, h1, if_neg hr]
        rw [List.filter_cons]
        simp
      · have hrkb : (r.1 == k) = false := by
          simp only [beq_eq_false_iff_ne, ne_eq]
          exact hrk
        rw [List.filter_cons, hrkb]
        simp only [Bool.false_eq_true, if_false]
        rw [ih (r.1 :: seen) k]
        by_cases hk : k ∈ seen
        · rw [if_pos (List.mem_cons_of_mem r.1 hk), if_pos hk]
        · have hk2 : k ∉ r.1 :: seen := by
            simp only [List.mem_cons]
            rintro (rfl | h)
            · exact hrk rfl
            · exact hk h
          rw [if_neg hk2, if_neg hk, List.filter_cons, hrkb]
          simp

theorem head?_filter_index (q : Date × ℚ → Bool) :
    ∀ (l : List (Date × ℚ)) (p : Date × ℚ), (l.filter q).head? = some p →
      ∃ j : ℕ, l[j]? = some p ∧ ∀ i < j, ∀ a, l[i]? = some a → q a = false := by
  intro l
  induction l with
  | nil => intro p hp; simp at hp
  | cons a l ih =>
    intro p hp
    rw [List.filter_cons] at hp
    by_cases hq : q a = true
    · rw [hq] at hp
      simp only [if_true, List.head?_cons, Option.some.injEq] at hp
      subst hp
      exact ⟨0, by simp, by omega⟩
    · rw [Bool.not_eq_true] at hq
      rw [hq] at hp
      simp only [Bool.false_eq_true, if_false] at hp
      obtain ⟨j, hj, hearlier⟩ := ih p hp
      refine ⟨j + 1, by simpa using hj, ?_⟩
      intro i hi b hb
      match i with
      | 0 =>
        simp only [List.getElem?_cons_zero, Option.some.injEq] at hb
        exact hb ▸ hq
      | i + 1 =>
        rw [List.getElem?_cons_succ] at hb
        exact hearlier i (by omega) b hb

theorem mem_take_one_head? (l : List (Date × ℚ)) (p : Date × ℚ)
    (hp : p ∈ l.take 1) : l.head? = some p := by
  match l with
  | [] => simp at hp
  | a :: t =>
    simp only [List.take_succ_cons, List.take_zero, List.mem_singleton] at hp
    subst hp
    rfl

/-- C8: for every optimization year that is not a leap year whose mapped
weather year is one, the loader's PPA stream has (i) pairwise distinct
instants — at most one row per instant; (ii) per instant exactly the
*first* row of the re-stamped stream carrying it; and (iii) when every
re-stamped 29-February row is preceded by a row of the same target
instant that is not a 29-February row (as in a chronologically ordered
hourly stream, where 28 February precedes 29 February), every surviving
row originates from a non-leap-day source row: the re-stamped leap-day
hours are discarded. -/
theorem C8_leap_day_dedup (weatherYear optYear : ℕ) (stream : List (Date × ℚ))
    (hwy : is_leap_year weatherYear = true) (hoy : is_leap_year optYear = false)
    (hchron : ∀ j : Fin stream.length,
      (stream.get j).1.month = 2 → (stream.get j).1.day = 29 →
      ∃ i : Fin stream.length, (i : ℕ) < (j : ℕ) ∧
        safe_replace_year (stream.get i).1 optYear =
          safe_replace_year (stream.get j).1 optYear ∧
        ¬((stream.get i).1.month = 2 ∧ (stream.get i).1.day = 29)) :
    ((ppaForOptYear weatherYear optYear stream).map Prod.fst).Nodup ∧
    (∀ k : Date,
      (ppaForOptYear weatherYear optYear stream).filter (fun r => r.1 == k) =
        ((stream.map (restampRow optYear)).filter (fun r => r.1 == k)).take 1) ∧
    (∀ p ∈ ppaForOptYear weatherYear optYear stream,
      ∃ r ∈ stream, ¬(r.1.month = 2 ∧ r.1.day = 29) ∧ p = restampRow optYear r) := by
  have hbranch : ppaForOptYear weatherYear optYear stream =
      drop_duplicates_keep_first (stream.map (restampRow optYear)) := by
    simp [ppaForOptYear, hwy, hoy]
  have hfilter : ∀ k : Date,
      (ppaForOptYear weatherYear optYear stream).filter (fun r => r.1 == k) =
        ((stream.map (restampRow optYear)).filter (fun r => r.1 == k)).take 1 := by
    intro k
    rw [hbranch]
    unfold drop_duplicates_keep_first
    rw [drop_duplicates_scan_filter]
    simp
  refine ⟨?_, hfilter, ?_⟩
  · rw [hbranch]
    exact (drop_duplicates_scan_keys _ []).1
  · intro p hp
    have hpk : p ∈ (ppaForOptYear weatherYear optYear stream).filter
        (fun r => r.1 == p.1) := List.mem_filter.mpr ⟨hp, by simp⟩
    rw [hfilter p.1] at hpk
    have hhead := mem_take_one_head? _ p hpk
    obtain ⟨j, hj, hearlier⟩ := head?_filter_index _ _ p hhead
    have hjlen : j < (stream.map (restampRow optYear)).length :=
      (List.getElem?_eq_some.mp hj).1
    rw [List.length_map] at hjlen
    rw [List.getElem?_map] at hj
    obtain ⟨r, hr, hfr⟩ := Option.map_eq_some'.mp hj
    have hrmem : r ∈ stream := List.getElem?_mem hr
    by_cases hfeb : r.1.month = 2 ∧ r.1.day = 29
    · exfalso
      have hget : stream.get ⟨j, hjlen⟩ = r := by
        rw [List.get_eq_getElem]
        rw [List.getElem?_eq_getElem hjlen] at hr
        exact Option.some.inj hr
      obtain ⟨i, hij, hkey, -⟩ := hchron ⟨j, hjlen⟩
        (by rw [hget]; exact hfeb.1) (by rw [hget]; exact hfeb.2)
      have hia : (stream.map (restampRow optYear))[(i : ℕ)]? =
          some (restampRow optYear (stream.get i)) := by
        rw [List.getElem?_map, List.get_eq_getElem,
          List.getElem?_eq_getElem i.isLt]
        rfl
      have hqfalse := hearlier (i : ℕ) hij _ hia
      have hkeyp : (restampRow optYear (stream.get i)).1 = p.1 := by
        show safe_replace_year (stream.get i).1 optYear = p.1
        rw [hkey, hget]
        rw [← hfr]
        rfl
      rw [hkeyp] at hqfalse
      simp at hqfalse
    · exact ⟨r, hrmem, hfeb, hfr.symm⟩

/-- Witness for C8: weather year 2008 (leap) mapped onto 2029 (non-leap);
the loader keeps the two 28-February rows and discards the two re-stamped
29-February rows. -/
theorem C8_leap_day_dedup_witness :
    is_leap_year 2008 = true ∧ is_leap_year 2029 = false ∧
    (((ppaForOptYear 2008 2029 demoStream).map Prod.fst).Nodup ∧
    (∀ k : Date,
      (ppaForOptYear 2008 2029 demoStream).filter (fun r => r.1 == k) =
        ((demoStream.map (restampRow 2029)).filter (fun r => r.1 == k)).take 1) ∧
    (∀ p ∈ ppaForOptYear 2008 2029 demoStream,
      ∃ r ∈ demoStream, ¬(r.1.month = 2 ∧ r.1.day = 29) ∧
        p = restampRow 2029 r)) ∧
    ppaForOptYear 2008 2029 demoStream =
      [(⟨2029, 2, 28, 0⟩, 1), (⟨2029, 2, 28, 1⟩, 2)] :=
  ⟨rfl, rfl,
    C8_leap_day_dedup 2008 2029 demoStream rfl rfl (by decide),
    by rfl⟩

/-- C9: the result of `get_ppa_data` is independent of its `flatten` and
`pv_share` arguments — two calls differing only in them return identical
tables — and the documented single-series shape
`["datetime", "G_PPA_avail"]` of `flatten=True` is never produced: the
column list always starts with the pivot index `datetime, year, hour`
followed by one column per mix. -/
theorem C9_flatten_pv_share_ignored (pvElec windElec : ℕ → List (Date × ℚ))
    (start_year end_year : ℕ) (mode : Mode) (mixes : Option (List ℕ))
    (f1 f2 : Bool) (p1 p2 : Option ℕ) :
    get_ppa_data pvElec windElec start_year end_year mode mixes f1 p1 =
      get_ppa_data pvElec windElec start_year end_year mode mixes f2 p2 ∧
    (get_ppa_data pvElec windElec start_year end_year mode mixes f1 p1).columns ≠
      ["datetime", "G_PPA_avail"] := by
  refine ⟨rfl, ?_⟩
  intro h
  simp only [get_ppa_data, pivotWide, pivotColumns] at h
  have h3 := (List.cons.injEq _ _ _ _).mp h
  have h4 := (List.cons.injEq _ _ _ _).mp h3.2
  exact absurd h4.1 (by decide)
